import Mathlib

/-!
Verification of the resume-scoring core of the Code4Edtech repository
(EnhancedAnalysisService, SimpleAnalysisService and AIAnalysisService).

Modelling conventions:
- JavaScript numbers are modelled as exact values (integers in ZZ, fractions
  in QQ); Math.round on a nonnegative value takes the exact value of its
  double argument to floor (x + 1/2), as the ECMAScript definition does.
  The combination Math.round (h * 0.4 + s * 0.6) is modelled exactly over
  the integers: for integer h and s the weighted sum has fractional part a
  multiple of 1/5, so its distance to the nearest half-integer is at least
  1/10, far above the accumulated double rounding error, and the IEEE
  evaluation rounds identically.  The percentage
  Math.round ((m / t) * 100) is NOT modelled by exact rational rounding,
  because the two binary64 roundings can land just below a half-integer tie
  (23 of 40 skills gives 57 in JavaScript, where exact rounding gives 58);
  it is modelled by jsPct, an explicit binary64 round-to-nearest-even
  evaluation of the division and the multiplication.  The exponent of that
  model is not clamped, so it coincides with IEEE-754 binary64 on the whole
  normal range, which covers every value reachable from JavaScript array
  lengths (below 2^32) and hence every input the services can see.
- String.prototype.includes is modelled as a substring scan over the
  character list of the string; String.prototype.toLowerCase is modelled by
  mapping Char.toLower over the character list, which agrees on ASCII data.
- Fields of the parsed LLM JSON object that the code reads with a
  JavaScript or-default (the pattern value-or-default) are modelled as
  Option fields; a missing field is none.  A numeric zero is falsy in
  JavaScript, so the numeric or-default also replaces an explicit 0.
- The network call of performLLMAnalysis is modelled by an explicit outcome
  value: the provider call failing, the regex finding no JSON object, the
  JSON decode throwing, or a successfully parsed object.
-/

/-- Math.round (a / b) for naturals a and b with 0 < b.  Math.round rounds
half up, so Math.round (a / b) is floor (a / b + 1/2) = floor ((2a + b) / 2b),
computed here with natural division so that the kernel can evaluate it.  The
lemma natRoundDiv_eq_round relates it to the rational rounding function. -/
def natRoundDiv (a b : ℕ) : ℕ := (2 * a + b) / (2 * b)

/-- Math.round (h * 0.4 + s * 0.6) for integers h and s, computed exactly
over the integers.  The weighted sum is (4h + 6s) / 10, whose fractional part
lies in 0, 1/5, 2/5, 3/5, 4/5, so rounding half up is floor ((4h + 6s + 5) / 10);
integer division on ZZ is floor division.  The lemma combineRound_eq_round
relates it to the rational rounding function. -/
def combineRound (h s : ℤ) : ℤ := (4 * h + 6 * s + 5) / 10

/-- Floor of the base-2 logarithm, by repeated halving with an explicit
structural fuel; fuel n is always sufficient. -/
def natLg2Aux : ℕ → ℕ → ℕ
  | 0, _ => 0
  | fuel + 1, n => if n < 2 then 0 else natLg2Aux fuel (n / 2) + 1

/-- Floor of the base-2 logarithm of a positive natural number. -/
def natLg2 (n : ℕ) : ℕ := natLg2Aux n n

/-- Nearest integer to x / y for positive y, ties to even: the rounding
that IEEE-754 applies to significands. -/
def rne (x y : ℕ) : ℕ :=
  if 2 * (x % y) < y then x / y
  else if y < 2 * (x % y) then x / y + 1
  else if (x / y) % 2 = 0 then x / y else x / y + 1

/-- First guess for the floor of the base-2 logarithm of a / b: the
difference of the integer logarithms, which is off by at most one. -/
def ilog2Guess (a b : ℕ) : ℤ := (natLg2 a : ℤ) - (natLg2 b : ℤ)

/-- Floor of the base-2 logarithm of the positive fraction a / b: the first
guess is corrected downward by one when the comparison 2^guess ≤ a / b
fails (the comparison is stated multiplicatively over the naturals so that
it covers both signs of the guess). -/
def ilog2Pair (a b : ℕ) : ℤ :=
  if b * 2 ^ (ilog2Guess a b).toNat ≤ a * 2 ^ (-ilog2Guess a b).toNat
  then ilog2Guess a b else ilog2Guess a b - 1

/-- Exponent of the binary64 rounding of a / b: the significand is scaled
into the interval from 2^52 to 2^53. -/
def rn53Exp (a b : ℕ) : ℤ := ilog2Pair a b - 52

/-- Binary64 round-to-nearest-even of the positive fraction a / b, as a
significand and an exponent e, with value significand * 2^e.  The exponent
is not clamped to the IEEE range, so this agrees with IEEE-754 binary64 on
the whole normal range; every quotient and product reachable in the scoring
code (array lengths below 2^32) lies well inside it. -/
def rn53Pair (a b : ℕ) : ℕ × ℤ :=
  (rne (a * 2 ^ (-rn53Exp a b).toNat) (b * 2 ^ (rn53Exp a b).toNat), rn53Exp a b)

/-- Rational value of the binary64 rounding of a / b. -/
def rn53Val (a b : ℕ) : ℚ := ((rn53Pair a b).1 : ℚ) * (2 : ℚ) ^ (rn53Pair a b).2

/-- Numerator of the exact product fl (m / t) * 100 as a dyadic fraction. -/
def pctProd (m t : ℕ) : ℕ := (rn53Pair m t).1 * 100 * 2 ^ (rn53Pair m t).2.toNat

/-- Denominator of the exact product fl (m / t) * 100 as a dyadic
fraction. -/
def pctProdDen (m t : ℕ) : ℕ := 2 ^ (-(rn53Pair m t).2).toNat

/-- Binary64 rounding of the product fl (m / t) * 100: the double that
JavaScript obtains for (m / t) * 100. -/
def pctPair (m t : ℕ) : ℕ × ℤ := rn53Pair (pctProd m t) (pctProdDen m t)

/-- Math.round ((m / t) * 100) as JavaScript computes it for array counts m
and positive t: the quotient m / t is rounded to binary64, the product with
the exact constant 100 is rounded to binary64 again, and Math.round maps the
exact value of the resulting double to the nearest integer, half up, which
natRoundDiv computes on the dyadic significand and exponent. -/
def jsPct (m t : ℕ) : ℕ :=
  if m = 0 then 0
  else natRoundDiv ((pctPair m t).1 * 2 ^ (pctPair m t).2.toNat)
    (2 ^ (-(pctPair m t).2).toNat)

/-- JavaScript or-default for a numeric field: a missing field or an explicit
zero (both falsy) is replaced by the default. -/
def jsOrInt (v : Option ℤ) (d : ℤ) : ℤ :=
  match v with
  | none => d
  | some x => if x = 0 then d else x

/-- Character-list version of startsWith: the first argument is an initial
segment of the second. -/
def leadEq : List Char → List Char → Bool
  | [], _ => true
  | _ :: _, [] => false
  | a :: as, b :: bs => a == b && leadEq as bs

/-- Substring scan: does the haystack contain the needle contiguously? -/
def strHasSub (needle : List Char) : List Char → Bool
  | [] => leadEq needle []
  | c :: t => leadEq needle (c :: t) || strHasSub needle t

/-- Model of String.prototype.includes, over the character lists of the two
strings. -/
def strIncludes (hay sub : List Char) : Bool := strHasSub sub hay

/-- Model of String.prototype.toLowerCase: character-wise lower-casing of
the character list (agrees with the JavaScript behaviour on ASCII data). -/
def toLowerList (s : List Char) : List Char := s.map Char.toLower

/-- JobDescription record as imported from directDbService. -/
structure JobDescription where
  title : String
  company : String
  description : String
  must_have_skills : List String
  good_to_have_skills : List String
  experience_required : String
  education_required : List String
deriving DecidableEq

/-- Verdict union type of the analysis results. -/
inductive Verdict where
  | High
  | Medium
  | Low
deriving DecidableEq

/-- Result record of EnhancedAnalysisService.performHardMatch. -/
structure HardMatchResult where
  hard_match_score : ℤ
  matched_skills : List String
  missing_skills : List String
  critical_missing_skills : List String
deriving DecidableEq

/-- A matched/missing pair inside skills_breakdown. -/
structure SkillPair where
  matched : List String
  missing : List String
deriving DecidableEq

/-- The skills_breakdown object of the analysis result. -/
structure SkillsBreakdown where
  technical_skills : SkillPair
  soft_skills : SkillPair
  domain_knowledge : SkillPair
deriving DecidableEq

/-- The scoring_breakdown object of the analysis result. -/
structure ScoringBreakdown where
  skills_match : ℤ
  experience_match : ℤ
  education_match : ℤ
  project_relevance : ℤ
  overall_fit : ℤ
deriving DecidableEq

/-- Semantic analysis object: either the JSON object parsed from the LLM
reply (whose optional fields may be absent) or the fallback object.  The
field semantic_match_score is read without a default by
combineAnalysisResults, so it is modelled as a plain integer. -/
structure SemanticData where
  semantic_match_score : ℤ
  strengths : Option (List String)
  weaknesses : Option (List String)
  missing_certifications : Option (List String)
  missing_projects : Option (List String)
  experience_gaps : Option (List String)
  education_gaps : Option (List String)
  improvement_suggestions : Option (List String)
  recommended_courses : Option (List String)
  recommended_projects : Option (List String)
  immediate_actions : Option (List String)
  short_term_goals : Option (List String)
  long_term_goals : Option (List String)
  skills_breakdown : Option SkillsBreakdown
  scoring_breakdown : Option ScoringBreakdown
  confidence_score : Option ℤ
deriving DecidableEq

/-- EnhancedAnalysisResult interface of enhancedAnalysisService.ts. -/
structure EnhancedAnalysisResult where
  relevance_score : ℤ
  verdict : Verdict
  hard_match_score : ℤ
  semantic_match_score : ℤ
  matched_skills : List String
  missing_skills : List String
  critical_missing_skills : List String
  missing_certifications : List String
  missing_projects : List String
  experience_gaps : List String
  education_gaps : List String
  strengths : List String
  weaknesses : List String
  improvement_suggestions : List String
  recommended_courses : List String
  recommended_projects : List String
  skills_breakdown : SkillsBreakdown
  scoring_breakdown : ScoringBreakdown
  immediate_actions : List String
  short_term_goals : List String
  long_term_goals : List String
  analysis_timestamp : String
  confidence_score : ℤ
deriving DecidableEq

/-- The static skillVariations table of performHardMatch. -/
def skillVariations : List (String × List String) :=
  [ ("javascript", ["js", "node.js", "nodejs", "react", "angular", "vue"]),
    ("python", ["py", "django", "flask", "fastapi", "pandas", "numpy"]),
    ("java", ["spring", "hibernate", "maven", "gradle"]),
    ("react", ["reactjs", "react.js", "jsx", "hooks"]),
    ("angular", ["angularjs", "angular.js", "typescript"]),
    ("machine learning", ["ml", "ai", "artificial intelligence", "tensorflow", "pytorch"]),
    ("sql", ["mysql", "postgresql", "database", "db"]),
    ("aws", ["amazon web services", "cloud", "ec2", "s3", "lambda"]),
    ("docker", ["containerization", "kubernetes", "k8s"]),
    ("git", ["github", "version control", "gitlab", "bitbucket"]) ]

/-- Index access skillVariations[skillLower]: some list when the key is
present, none otherwise. -/
def lookupVariations (key : List Char) : Option (List String) :=
  (skillVariations.find? (fun p => p.1.data == key)).map Prod.snd

/-- Per-skill matching test of performHardMatch: direct lower-cased
substring test, then the variation table. -/
def isSkillMatched (resumeLower : List Char) (skill : String) : Bool :=
  let skillLower := toLowerList skill.data
  if strIncludes resumeLower skillLower then true
  else
    match lookupVariations skillLower with
    | some vars => vars.any (fun v => strIncludes resumeLower (toLowerList v.data))
    | none => false

/-- Loop body of the must-have pass of performHardMatch: push the skill on
the matched list when it matches, else on the missing list. -/
def classifySkill (p : String → Bool) (acc : List String × List String)
    (skill : String) : List String × List String :=
  if p skill then (acc.1 ++ [skill], acc.2) else (acc.1, acc.2 ++ [skill])

/-- Loop body of the good-to-have pass of performHardMatch: as classifySkill
but skipping a skill already present in the target list. -/
def checkSkill (p : String → Bool) (acc : List String × List String)
    (skill : String) : List String × List String :=
  if p skill then
    if skill ∈ acc.1 then acc else (acc.1 ++ [skill], acc.2)
  else
    if skill ∈ acc.2 then acc else (acc.1, acc.2 ++ [skill])

/-- EnhancedAnalysisService.performHardMatch. -/
def performHardMatch (resumeText : String) (jd : JobDescription) : HardMatchResult :=
  let resumeLower := toLowerList resumeText.data
  let p := isSkillMatched resumeLower
  let step1 := jd.must_have_skills.foldl (classifySkill p) ([], [])
  let res := jd.good_to_have_skills.foldl (checkSkill p) step1
  let totalSkills := jd.must_have_skills.length + jd.good_to_have_skills.length
  { hard_match_score :=
      if 0 < totalSkills then (jsPct res.1.length totalSkills : ℤ) else 0
    matched_skills := res.1
    missing_skills := res.2
    critical_missing_skills :=
      res.2.filter (fun skill => decide (skill ∈ jd.must_have_skills)) }

/-- SimpleAnalysisService.performHardMatch: one pass over the concatenation
of the two skill lists, with no duplicate suppression, and a default score
of 50 when both lists are empty. -/
def simplePerformHardMatch (resumeText : String) (jd : JobDescription) : HardMatchResult :=
  let resumeLower := toLowerList resumeText.data
  let p := isSkillMatched resumeLower
  let res := (jd.must_have_skills ++ jd.good_to_have_skills).foldl (classifySkill p) ([], [])
  let totalSkills := jd.must_have_skills.length + jd.good_to_have_skills.length
  { hard_match_score :=
      if 0 < totalSkills then (jsPct res.1.length totalSkills : ℤ) else 50
    matched_skills := res.1
    missing_skills := res.2
    critical_missing_skills :=
      res.2.filter (fun skill => decide (skill ∈ jd.must_have_skills)) }

/-- Fallback semantic analysis object returned when the LLM call or its
parsing fails (getFallbackSemanticAnalysis). -/
def getFallbackSemanticAnalysis : SemanticData :=
  { semantic_match_score := 65
    strengths := some ["Relevant technical background", "Good educational foundation"]
    weaknesses := some ["Limited industry experience", "Could improve project portfolio"]
    missing_certifications := some ["AWS Certification", "Industry-specific certifications"]
    missing_projects := some ["Full-stack web application", "Open source contributions"]
    experience_gaps := some ["Production environment experience", "Team collaboration"]
    education_gaps := some ["Advanced technical courses"]
    improvement_suggestions := some
      ["Build more comprehensive projects", "Contribute to open source",
       "Get relevant certifications", "Gain hands-on experience"]
    recommended_courses := some ["Advanced programming", "System design", "Cloud platforms"]
    recommended_projects := some ["E-commerce platform", "API development", "Mobile app"]
    immediate_actions := some
      ["Update LinkedIn profile", "Start a new project", "Apply for internships"]
    short_term_goals := some
      ["Complete certification", "Build portfolio", "Network with professionals"]
    long_term_goals := some ["Secure full-time role", "Specialize in domain"]
    skills_breakdown := some
      { technical_skills := { matched := ["Programming"], missing := ["Advanced frameworks"] }
        soft_skills := { matched := ["Problem solving"], missing := ["Leadership"] }
        domain_knowledge := { matched := ["Basic concepts"], missing := ["Industry experience"] } }
    scoring_breakdown := some
      { skills_match := 65, experience_match := 50, education_match := 70
        project_relevance := 60, overall_fit := 65 }
    confidence_score := some 75 }

/-- Outcome of the Gemini call inside performLLMAnalysis: the fetch or HTTP
status failing, the regex finding no JSON object in the reply text, the JSON
decode throwing, or a successfully parsed semantic object. -/
inductive LLMOutcome where
  | providerFailure
  | noJsonFound
  | parseError
  | parsed (result : SemanticData)
deriving DecidableEq

/-- EnhancedAnalysisService.performLLMAnalysis: the parsed object when
everything succeeds, the fallback object on every failure path (the catch
block around the fetch, the missing-JSON throw, and the decode throw). -/
def performLLMAnalysis (outcome : LLMOutcome) : SemanticData :=
  match outcome with
  | LLMOutcome.parsed result => result
  | _ => getFallbackSemanticAnalysis

/-- EnhancedAnalysisService.combineAnalysisResults.  The timestamp argument
stands for the new Date toISOString value taken at call time. -/
def combineAnalysisResults (hardMatch : HardMatchResult) (semantic : SemanticData)
    (jd : JobDescription) (timestamp : String) : EnhancedAnalysisResult :=
  let finalScore : ℤ :=
    combineRound hardMatch.hard_match_score semantic.semantic_match_score
  let verdict : Verdict :=
    if finalScore ≥ 80 then Verdict.High
    else if finalScore ≥ 50 then Verdict.Medium
    else Verdict.Low
  { relevance_score := finalScore
    verdict := verdict
    hard_match_score := hardMatch.hard_match_score
    semantic_match_score := semantic.semantic_match_score
    matched_skills := hardMatch.matched_skills
    missing_skills := hardMatch.missing_skills
    critical_missing_skills := hardMatch.critical_missing_skills
    missing_certifications := semantic.missing_certifications.getD []
    missing_projects := semantic.missing_projects.getD []
    experience_gaps := semantic.experience_gaps.getD []
    education_gaps := semantic.education_gaps.getD []
    strengths := semantic.strengths.getD []
    weaknesses := semantic.weaknesses.getD []
    improvement_suggestions := semantic.improvement_suggestions.getD []
    recommended_courses := semantic.recommended_courses.getD []
    recommended_projects := semantic.recommended_projects.getD []
    skills_breakdown := semantic.skills_breakdown.getD
      { technical_skills := { matched := [], missing := [] }
        soft_skills := { matched := [], missing := [] }
        domain_knowledge := { matched := [], missing := [] } }
    scoring_breakdown := semantic.scoring_breakdown.getD
      { skills_match := hardMatch.hard_match_score
        experience_match := 70
        education_match := 60
        project_relevance := 65
        overall_fit := finalScore }
    immediate_actions := semantic.immediate_actions.getD []
    short_term_goals := semantic.short_term_goals.getD []
    long_term_goals := semantic.long_term_goals.getD []
    analysis_timestamp := timestamp
    confidence_score := jsOrInt semantic.confidence_score 85 }

/-- EnhancedAnalysisService.analyzeResumeEnhanced: hard match, then the LLM
step with its explicit outcome, then the combination step. -/
def analyzeResumeEnhanced (resumeText : String) (jd : JobDescription)
    (outcome : LLMOutcome) (timestamp : String) : EnhancedAnalysisResult :=
  combineAnalysisResults (performHardMatch resumeText jd) (performLLMAnalysis outcome) jd timestamp

/-- AIAnalysisService.generateVerdict (80/50 split). -/
def generateVerdict (score : ℤ) : Verdict :=
  if score ≥ 80 then Verdict.High
  else if score ≥ 50 then Verdict.Medium
  else Verdict.Low

/-- Verdict computation inside SimpleAnalysisService.generateComprehensiveAnalysis
(80/60 split). -/
def simpleAnalysisVerdict (score : ℤ) : Verdict :=
  if score ≥ 80 then Verdict.High
  else if score ≥ 60 then Verdict.Medium
  else Verdict.Low

/-- Clamp applied by AIAnalysisService.parseAIResponse to the parsed
semanticMatchScore: Math.min (100, Math.max (0, value-or-0)). -/
def parseAIClampedScore (parsedScore : Option ℤ) : ℤ :=
  min 100 (max 0 (jsOrInt parsedScore 0))

section RoundingLemmas

/-- natRoundDiv agrees with the rational rounding function round. -/
lemma natRoundDiv_eq_round (a b : ℕ) (hb : 0 < b) :
    (natRoundDiv a b : ℤ) = round ((a : ℚ) / b) := by
  have hb0 : (b : ℚ) ≠ 0 := Nat.cast_ne_zero.mpr hb.ne'
  rw [round_eq]
  have h1 : (a : ℚ) / b + 1 / 2 = (((2 * a + b : ℕ) : ℤ) : ℚ) / ((2 * b : ℕ) : ℚ) := by
    push_cast
    field_simp
    ring
  rw [h1, Rat.floor_intCast_div_natCast]
  unfold natRoundDiv
  push_cast
  rfl

/-- combineRound agrees with the rational rounding of the weighted sum
0.4 h + 0.6 s. -/
lemma combineRound_eq_round (h s : ℤ) :
    combineRound h s = round ((0.4 : ℚ) * h + 0.6 * s) := by
  rw [round_eq]
  have h1 : (0.4 : ℚ) * h + 0.6 * s + 1 / 2
      = (((4 * h + 6 * s + 5 : ℤ)) : ℚ) / ((10 : ℕ) : ℚ) := by
    push_cast
    norm_num
    ring
  rw [h1, Rat.floor_intCast_div_natCast]
  unfold combineRound
  norm_num

/-- Bounds for round on the interval 0 to 100. -/
lemma round_bounds {q : ℚ} (h0 : 0 ≤ q) (h1 : q ≤ 100) :
    0 ≤ round q ∧ round q ≤ 100 := by
  rw [round_eq]
  constructor
  · rw [Int.le_floor]
    push_cast
    linarith
  · have : ⌊q + 1 / 2⌋ < 101 := by
      rw [Int.floor_lt]
      push_cast
      linarith
    omega

end RoundingLemmas

section Binary64Lemmas

lemma natLg2Aux_spec : ∀ fuel n : ℕ, 1 ≤ n → n ≤ fuel →
    2 ^ natLg2Aux fuel n ≤ n ∧ n < 2 ^ (natLg2Aux fuel n + 1) := by
  intro fuel
  induction fuel with
  | zero => intro n h1 h2; omega
  | succ fuel ih =>
      intro n h1 h2
      by_cases hn : n < 2
      · simp only [natLg2Aux, hn, if_true]
        constructor
        · simpa using h1
        · simpa using hn
      · have h1' : 1 ≤ n / 2 := by omega
        have h2' : n / 2 ≤ fuel := by omega
        obtain ⟨ha, hb⟩ := ih (n / 2) h1' h2'
        simp only [natLg2Aux, hn, if_false]
        have e1 : 2 ^ (natLg2Aux fuel (n / 2) + 1) = 2 * 2 ^ natLg2Aux fuel (n / 2) := by
          rw [pow_succ]; ring
        have e2 : 2 ^ (natLg2Aux fuel (n / 2) + 1 + 1) = 4 * 2 ^ natLg2Aux fuel (n / 2) := by
          rw [pow_succ, pow_succ]; ring
        omega

lemma natLg2_spec (n : ℕ) (h : 1 ≤ n) : 2 ^ natLg2 n ≤ n ∧ n < 2 ^ (natLg2 n + 1) :=
  natLg2Aux_spec n n h le_rfl

lemma qpow_mul_cancel (k : ℤ) :
    (2 : ℚ) ^ k * ((2 : ℕ) ^ (-k).toNat : ℚ) = ((2 : ℕ) ^ k.toNat : ℚ) := by
  have hk : k = (k.toNat : ℤ) - ((-k).toNat : ℤ) := by omega
  rw [hk, zpow_sub₀ (by norm_num : (2:ℚ) ≠ 0)]
  push_cast
  rw [zpow_natCast, zpow_natCast]
  field_simp

lemma rne_bounds (x y : ℕ) (hy : 1 ≤ y) :
    (x : ℚ) / y - 1 / 2 ≤ rne x y ∧ (rne x y : ℚ) ≤ (x : ℚ) / y + 1 / 2 := by
  have hy0 : (y : ℚ) ≠ 0 := by positivity
  have hyq : (0 : ℚ) < y := by positivity
  have hxq : (x : ℚ) = (y : ℚ) * (x / y : ℕ) + ((x % y : ℕ) : ℚ) := by
    exact_mod_cast (Nat.div_add_mod x y).symm
  have hdiv : (x : ℚ) / y = (x / y : ℕ) + ((x % y : ℕ) : ℚ) / y := by
    rw [hxq]; field_simp; ring
  have hrny : ((x % y : ℕ) : ℚ) < y := by
    exact_mod_cast Nat.mod_lt x (by omega)
  have hrn0 : (0 : ℚ) ≤ ((x % y : ℕ) : ℚ) := by positivity
  unfold rne
  split_ifs with hc1 hc2 hc3
  · have : 2 * ((x % y : ℕ) : ℚ) < y := by exact_mod_cast hc1
    constructor
    · rw [hdiv]
      have : ((x % y : ℕ) : ℚ) / y < 1 / 2 := by
        rw [div_lt_div_iff hyq (by norm_num)]
        linarith
      have h0 : (0 : ℚ) ≤ ((x % y : ℕ) : ℚ) / y := by positivity
      push_cast
      linarith
    · rw [hdiv]
      have h0 : (0 : ℚ) ≤ ((x % y : ℕ) : ℚ) / y := by positivity
      have : ((x % y : ℕ) : ℚ) / y < 1 / 2 := by
        rw [div_lt_div_iff hyq (by norm_num)]
        linarith
      linarith
  · have hgt : (y : ℚ) < 2 * ((x % y : ℕ) : ℚ) := by exact_mod_cast hc2
    have hlt1 : ((x % y : ℕ) : ℚ) / y < 1 := by
      rw [div_lt_one hyq]; linarith
    have hgthalf : 1 / 2 < ((x % y : ℕ) : ℚ) / y := by
      rw [div_lt_div_iff (by norm_num) hyq]; linarith
    constructor
    · rw [hdiv]; push_cast; linarith
    · rw [hdiv]; push_cast; linarith
  · have heq : 2 * ((x % y : ℕ) : ℚ) = y := by
      have h1 : (2 * (x % y) : ℕ) = y := by omega
      exact_mod_cast h1
    have hhalf : ((x % y : ℕ) : ℚ) / y = 1 / 2 := by
      rw [div_eq_div_iff hy0 (by norm_num : (2:ℚ) ≠ 0)]; linarith
    constructor
    · rw [hdiv, hhalf]; linarith
    · rw [hdiv, hhalf]; linarith
  · have heq : 2 * ((x % y : ℕ) : ℚ) = y := by
      have h1 : (2 * (x % y) : ℕ) = y := by omega
      exact_mod_cast h1
    have hhalf : ((x % y : ℕ) : ℚ) / y = 1 / 2 := by
      rw [div_eq_div_iff hy0 (by norm_num : (2:ℚ) ≠ 0)]; linarith
    constructor
    · rw [hdiv, hhalf]; push_cast; linarith
    · rw [hdiv, hhalf]; push_cast; linarith

lemma two_zpow_pos (k : ℤ) : (0 : ℚ) < (2 : ℚ) ^ k := by positivity

lemma cast_pow_nat (n : ℕ) : (((2 : ℕ) ^ n : ℕ) : ℚ) = (2 : ℚ) ^ (n : ℤ) := by
  push_cast
  rw [zpow_natCast]

lemma ilog2Pair_le (a b : ℕ) (ha : 1 ≤ a) (hb : 1 ≤ b) :
    (b : ℚ) * (2 : ℚ) ^ ilog2Pair a b ≤ a := by
  unfold ilog2Pair
  set k0 : ℤ := ilog2Guess a b with hk0
  split_ifs with htest
  · have hpos : (0 : ℚ) < ((2 : ℕ) ^ (-k0).toNat : ℚ) := by positivity
    rw [← mul_le_mul_right hpos, mul_assoc, qpow_mul_cancel]
    calc (b : ℚ) * ((2 : ℕ) ^ k0.toNat : ℚ) = ((b * 2 ^ k0.toNat : ℕ) : ℚ) := by push_cast; ring
    _ ≤ ((a * 2 ^ (-k0).toNat : ℕ) : ℚ) := by exact_mod_cast htest
    _ = (a : ℚ) * ((2 : ℕ) ^ (-k0).toNat : ℚ) := by push_cast; ring
  · obtain ⟨ha1, _⟩ := natLg2_spec a ha
    obtain ⟨_, hb2⟩ := natLg2_spec b hb
    have hbq : (b : ℚ) < (2 : ℚ) ^ ((natLg2 b : ℤ) + 1) := by
      have : (b : ℚ) < (((2 : ℕ) ^ (natLg2 b + 1) : ℕ) : ℚ) := by exact_mod_cast hb2
      calc (b : ℚ) < (((2 : ℕ) ^ (natLg2 b + 1) : ℕ) : ℚ) := this
      _ = (2 : ℚ) ^ (((natLg2 b + 1 : ℕ)) : ℤ) := cast_pow_nat _
      _ = (2 : ℚ) ^ ((natLg2 b : ℤ) + 1) := by push_cast; ring_nf
    have haq : (2 : ℚ) ^ ((natLg2 a : ℕ) : ℤ) ≤ a := by
      have : (((2 : ℕ) ^ natLg2 a : ℕ) : ℚ) ≤ a := by exact_mod_cast ha1
      calc (2 : ℚ) ^ ((natLg2 a : ℕ) : ℤ) = (((2 : ℕ) ^ natLg2 a : ℕ) : ℚ) := (cast_pow_nat _).symm
      _ ≤ a := this
    have hcomb : (b : ℚ) * (2 : ℚ) ^ (k0 - 1)
        < (2 : ℚ) ^ ((natLg2 b : ℤ) + 1) * (2 : ℚ) ^ (k0 - 1) :=
      mul_lt_mul_of_pos_right hbq (two_zpow_pos _)
    have hmerge : (2 : ℚ) ^ ((natLg2 b : ℤ) + 1) * (2 : ℚ) ^ (k0 - 1)
        = (2 : ℚ) ^ ((natLg2 a : ℕ) : ℤ) := by
      rw [← zpow_add₀ (by norm_num : (2:ℚ) ≠ 0)]
      congr 1
      rw [hk0]
      unfold ilog2Guess
      omega
    linarith

lemma scaled_div (a b : ℕ) (e : ℤ) (hb : 1 ≤ b) :
    ((a * 2 ^ (-e).toNat : ℕ) : ℚ) / ((b * 2 ^ e.toNat : ℕ) : ℚ)
      = (a : ℚ) / b * (2 : ℚ) ^ (-e) := by
  have h := qpow_mul_cancel (-e)
  rw [neg_neg] at h
  have hb0 : (b : ℚ) ≠ 0 := by positivity
  push_cast at h ⊢
  rw [← h]
  have hp1 : ((2 : ℚ) ^ e.toNat) ≠ 0 := by positivity
  field_simp
  ring

lemma dyadic_div (n : ℕ) (e : ℤ) :
    ((n * 2 ^ e.toNat : ℕ) : ℚ) / ((2 ^ (-e).toNat : ℕ) : ℚ) = (n : ℚ) * (2 : ℚ) ^ e := by
  have h := qpow_mul_cancel e
  push_cast at h ⊢
  rw [← h]
  have hp : ((2 : ℚ) ^ (-e).toNat) ≠ 0 := by positivity
  field_simp
  ring

lemma rn53Pair_spec (a b : ℕ) (ha : 1 ≤ a) (hb : 1 ≤ b) :
    1 ≤ (rn53Pair a b).1
    ∧ |rn53Val a b - (a : ℚ) / b| ≤ (a : ℚ) / b * (2 : ℚ) ^ (-53 : ℤ) := by
  have hyn : 1 ≤ b * 2 ^ (rn53Exp a b).toNat :=
    Nat.one_le_iff_ne_zero.mpr (by positivity)
  obtain ⟨hlo, hhi⟩ :=
    rne_bounds (a * 2 ^ (-rn53Exp a b).toNat) (b * 2 ^ (rn53Exp a b).toNat) hyn
  have hXval : ((a * 2 ^ (-rn53Exp a b).toNat : ℕ) : ℚ) / ((b * 2 ^ (rn53Exp a b).toNat : ℕ) : ℚ)
      = (a : ℚ) / b * (2 : ℚ) ^ (-rn53Exp a b) := scaled_div a b _ hb
  rw [hXval] at hlo hhi
  have habpos : (0 : ℚ) < (a : ℚ) / b := by positivity
  have hEpos : (0 : ℚ) < (2 : ℚ) ^ rn53Exp a b := two_zpow_pos _
  have hcpos : (0 : ℚ) < (2 : ℚ) ^ (-53 : ℤ) := two_zpow_pos _
  have hcancel : (2 : ℚ) ^ (-rn53Exp a b) * (2 : ℚ) ^ rn53Exp a b = 1 := by
    rw [← zpow_add₀ (by norm_num : (2:ℚ) ≠ 0)]
    norm_num
  have h52 : (2 : ℚ) ^ (52 : ℤ) ≤ (a : ℚ) / b * (2 : ℚ) ^ (-rn53Exp a b) := by
    have hk := ilog2Pair_le a b ha hb
    have hbq : (0 : ℚ) < (b : ℚ) := by positivity
    have h1 : (2 : ℚ) ^ ilog2Pair a b ≤ (a : ℚ) / b := by
      rw [le_div_iff hbq]
      linarith
    have hsplit : (2 : ℚ) ^ (52 : ℤ)
        = (2 : ℚ) ^ ilog2Pair a b * (2 : ℚ) ^ (-rn53Exp a b) := by
      rw [← zpow_add₀ (by norm_num : (2:ℚ) ≠ 0)]
      congr 1
      unfold rn53Exp
      ring
    rw [hsplit]
    exact mul_le_mul_of_nonneg_right h1 (le_of_lt (two_zpow_pos _))
  have h52e : (2 : ℚ) ^ (52 : ℤ) * (2 : ℚ) ^ rn53Exp a b ≤ (a : ℚ) / b := by
    have := mul_le_mul_of_nonneg_right h52 (le_of_lt hEpos)
    calc (2 : ℚ) ^ (52 : ℤ) * (2 : ℚ) ^ rn53Exp a b
        ≤ (a : ℚ) / b * (2 : ℚ) ^ (-rn53Exp a b) * (2 : ℚ) ^ rn53Exp a b := this
      _ = (a : ℚ) / b * ((2 : ℚ) ^ (-rn53Exp a b) * (2 : ℚ) ^ rn53Exp a b) := by ring
      _ = (a : ℚ) / b := by rw [hcancel]; ring
  have hone : (1 : ℚ) ≤ (2 : ℚ) ^ (52 : ℤ) := by
    rw [show (52 : ℤ) = ((52 : ℕ) : ℤ) by norm_num, zpow_natCast]
    exact one_le_pow₀ (by norm_num)
  constructor
  · have hq : (0 : ℚ) < ((rn53Pair a b).1 : ℚ) := by
      have : (2 : ℚ) ^ (52 : ℤ) - 1 / 2 ≤ ((rn53Pair a b).1 : ℚ) := by
        calc (2 : ℚ) ^ (52 : ℤ) - 1 / 2
            ≤ (a : ℚ) / b * (2 : ℚ) ^ (-rn53Exp a b) - 1 / 2 := by linarith
          _ ≤ ((rn53Pair a b).1 : ℚ) := hlo
      linarith
    have : 0 < (rn53Pair a b).1 := by exact_mod_cast hq
    omega
  · have hval : rn53Val a b = ((rn53Pair a b).1 : ℚ) * (2 : ℚ) ^ rn53Exp a b := rfl
    have hfst : ((rn53Pair a b).1 : ℚ)
        = (rne (a * 2 ^ (-rn53Exp a b).toNat) (b * 2 ^ (rn53Exp a b).toNat) : ℚ) := rfl
    have hc52 : (2 : ℚ) ^ (-53 : ℤ) * ((2 : ℚ) ^ (52 : ℤ) * (2 : ℚ) ^ rn53Exp a b)
        = (2 : ℚ) ^ rn53Exp a b / 2 := by
      rw [← mul_assoc, ← zpow_add₀ (by norm_num : (2:ℚ) ≠ 0)]
      rw [show (-53 : ℤ) + 52 = -1 by norm_num]
      rw [zpow_neg_one]
      ring
    have hup := mul_le_mul_of_nonneg_right hhi (le_of_lt hEpos)
    have hdn := mul_le_mul_of_nonneg_right hlo (le_of_lt hEpos)
    have hXP : (a : ℚ) / b * (2 : ℚ) ^ (-rn53Exp a b) * (2 : ℚ) ^ rn53Exp a b
        = (a : ℚ) / b := by
      rw [mul_assoc, hcancel]; ring
    have hcc := mul_le_mul_of_nonneg_left h52e (le_of_lt hcpos)
    have e1 : ((a : ℚ) / b * (2 : ℚ) ^ (-rn53Exp a b) + 1 / 2) * (2 : ℚ) ^ rn53Exp a b
        = (a : ℚ) / b + (2 : ℚ) ^ rn53Exp a b / 2 := by
      linear_combination hXP
    have e2 : ((a : ℚ) / b * (2 : ℚ) ^ (-rn53Exp a b) - 1 / 2) * (2 : ℚ) ^ rn53Exp a b
        = (a : ℚ) / b - (2 : ℚ) ^ rn53Exp a b / 2 := by
      linear_combination hXP
    rw [abs_le, hval, hfst]
    constructor
    · linarith [hup, hdn, hcc, hc52, e1, e2]
    · linarith [hup, hdn, hcc, hc52, e1, e2]

lemma rn53Val_nonneg (a b : ℕ) : 0 ≤ rn53Val a b := by
  unfold rn53Val
  positivity

lemma jsPct_of_pos (m t : ℕ) (hm : m ≠ 0) :
    jsPct m t = natRoundDiv ((pctPair m t).1 * 2 ^ (pctPair m t).2.toNat)
      (2 ^ (-(pctPair m t).2).toNat) := by
  unfold jsPct
  rw [if_neg hm]

lemma jsPct_val (m t : ℕ) (hm : 1 ≤ m) (ht : 1 ≤ t) :
    (jsPct m t : ℤ) = round (rn53Val (pctProd m t) (pctProdDen m t))
    ∧ |rn53Val (pctProd m t) (pctProdDen m t) - (100 * m : ℚ) / t|
        ≤ (100 * m : ℚ) / t * (2 : ℚ) ^ (-51 : ℤ) := by
  obtain ⟨hn1, herr1⟩ := rn53Pair_spec m t hm ht
  have hden1 : 1 ≤ pctProdDen m t := Nat.one_le_two_pow
  have hnum1 : 1 ≤ pctProd m t := by
    unfold pctProd
    have h2 : (2 : ℕ) ^ ((rn53Pair m t).2).toNat ≠ 0 := by positivity
    exact Nat.one_le_iff_ne_zero.mpr
      (Nat.mul_ne_zero (Nat.mul_ne_zero (by omega) (by norm_num)) h2)
  obtain ⟨hn2, herr2⟩ := rn53Pair_spec (pctProd m t) (pctProdDen m t) hnum1 hden1
  have hval2 : ((pctProd m t : ℕ) : ℚ) / ((pctProdDen m t : ℕ) : ℚ)
      = 100 * rn53Val m t := by
    unfold pctProd pctProdDen rn53Val
    have h := dyadic_div ((rn53Pair m t).1 * 100) ((rn53Pair m t).2)
    rw [show (rn53Pair m t).1 * 100 * 2 ^ (rn53Pair m t).2.toNat
        = (rn53Pair m t).1 * 100 * 2 ^ (rn53Pair m t).2.toNat from rfl]
    push_cast at h ⊢
    rw [mul_assoc] at h ⊢
    rw [h]
    ring
  constructor
  · have hm0 : m ≠ 0 := by omega
    rw [jsPct_of_pos m t hm0]
    have hdpos : 0 < 2 ^ (-(pctPair m t).2).toNat := Nat.pos_pow_of_pos _ (by norm_num)
    rw [natRoundDiv_eq_round _ _ hdpos, dyadic_div (pctPair m t).1 (pctPair m t).2]
    unfold rn53Val pctPair
    rfl
  · rw [hval2] at herr2
    have hc : (0 : ℚ) < (2 : ℚ) ^ (-53 : ℤ) := two_zpow_pos _
    have hc1 : (2 : ℚ) ^ (-53 : ℤ) ≤ 1 := by
      rw [show (-53 : ℤ) = -(53 : ℤ) by norm_num, zpow_neg]
      rw [show ((53 : ℤ)) = ((53 : ℕ) : ℤ) by norm_num, zpow_natCast]
      rw [inv_le_one_iff₀]
      right
      exact one_le_pow₀ (by norm_num)
    have h4c : (2 : ℚ) ^ (-51 : ℤ) = 4 * (2 : ℚ) ^ (-53 : ℤ) := by
      rw [show (-51 : ℤ) = 2 + (-53) by norm_num,
        zpow_add₀ (by norm_num : (2:ℚ) ≠ 0)]
      norm_num
    have hmt_pos : (0 : ℚ) < (m : ℚ) / t := by
      have h1 : (0 : ℚ) < (m : ℚ) := by exact_mod_cast hm
      have h2 : (0 : ℚ) < (t : ℚ) := by exact_mod_cast ht
      positivity
    have hx : (100 * m : ℚ) / t = 100 * ((m : ℚ) / t) := by ring
    have hv1 : 0 ≤ rn53Val m t := rn53Val_nonneg m t
    rw [abs_le] at herr1 herr2 ⊢
    rw [hx, h4c]
    set u : ℚ := (m : ℚ) / t with hu
    set c : ℚ := (2 : ℚ) ^ (-53 : ℤ) with hcdef
    have e1 : rn53Val m t ≤ u + u * c := by linarith [herr1.2]
    have e1l : u - u * c ≤ rn53Val m t := by linarith [herr1.1]
    have e2 : 100 * rn53Val m t * c ≤ 100 * (u + u * c) * c := by
      have h100 := mul_le_mul_of_nonneg_left e1 (by norm_num : (0:ℚ) ≤ 100)
      exact mul_le_mul_of_nonneg_right h100 hc.le
    have e3 : 100 * (u + u * c) * c = 100 * u * c + 100 * u * (c * c) := by ring
    have e4 : 100 * u * (c * c) ≤ 100 * u * c := by
      have hcc : c * c ≤ c := by nlinarith [hc.le, hc1]
      exact mul_le_mul_of_nonneg_left hcc (by positivity)
    have huc : (0 : ℚ) ≤ u * c := (mul_pos hmt_pos hc).le
    constructor
    · linarith [herr2.1, e1l, e2, e3, e4, huc]
    · linarith [herr2.2, e1, e2, e3, e4, huc]

lemma zpow_51_small : (2 : ℚ) ^ (-51 : ℤ) ≤ 1 / 1000 := by
  rw [show (-51 : ℤ) = -(51 : ℤ) by norm_num, zpow_neg,
    show ((51 : ℤ)) = ((51 : ℕ) : ℤ) by norm_num, zpow_natCast]
  rw [inv_le_comm₀ (by positivity) (by norm_num)]
  norm_num

lemma jsPct_le_100 (m t : ℕ) (hmt : m ≤ t) (ht : 1 ≤ t) : jsPct m t ≤ 100 := by
  rcases Nat.eq_zero_or_pos m with rfl | hm
  · simp [jsPct]
  · obtain ⟨hv, herr⟩ := jsPct_val m t hm ht
    have hx100 : (100 * m : ℚ) / t ≤ 100 := by
      rw [div_le_iff (by exact_mod_cast ht : (0:ℚ) < t)]
      have : (m : ℚ) ≤ t := by exact_mod_cast hmt
      nlinarith
    have hxpos : (0 : ℚ) < (100 * m : ℚ) / t := by
      have h1 : (0 : ℚ) < (m : ℚ) := by exact_mod_cast hm
      have h2 : (0 : ℚ) < (t : ℚ) := by exact_mod_cast ht
      positivity
    rw [abs_le] at herr
    have hvle : rn53Val (pctProd m t) (pctProdDen m t) ≤ 100 + 100 * (1 / 1000) := by
      have h51 := zpow_51_small
      have h51p : (0 : ℚ) < (2 : ℚ) ^ (-51 : ℤ) := two_zpow_pos _
      nlinarith [herr.2, mul_le_mul_of_nonneg_left h51 hxpos.le]
    have hround : round (rn53Val (pctProd m t) (pctProdDen m t)) ≤ 100 := by
      rw [round_eq]
      have : ⌊rn53Val (pctProd m t) (pctProdDen m t) + 1 / 2⌋ < 101 := by
        rw [Int.floor_lt]
        push_cast
        linarith
      omega
    have : (jsPct m t : ℤ) ≤ 100 := by rw [hv]; exact hround
    exact_mod_cast this

lemma round_eq_of_close (v x : ℚ) (n₀ : ℤ) (g ε : ℚ)
    (hεg : ε < g)
    (hlo : (n₀ : ℚ) + g ≤ x + 1 / 2) (hhi : x + 1 / 2 ≤ (n₀ : ℚ) + 1 - g)
    (herr : |v - x| ≤ ε) :
    round v = round x := by
  rw [round_eq, round_eq]
  rw [abs_le] at herr
  have h1 : ⌊v + 1 / 2⌋ = n₀ := by
    rw [Int.floor_eq_iff]
    constructor
    · linarith
    · linarith
  have h2 : ⌊x + 1 / 2⌋ = n₀ := by
    rw [Int.floor_eq_iff]
    constructor
    · linarith
    · linarith
  rw [h1, h2]

lemma jsPct_eq_round (m t : ℕ) (hmt : m ≤ t) (ht : 1 ≤ t) (ht32 : t ≤ 2 ^ 32)
    (htie : (200 * m + t) % (2 * t) ≠ 0) :
    (jsPct m t : ℤ) = round ((100 * m : ℚ) / t) := by
  have htq : (0 : ℚ) < (t : ℚ) := by exact_mod_cast ht
  rcases Nat.eq_zero_or_pos m with rfl | hm
  · simp [jsPct]
  · obtain ⟨hv, herr⟩ := jsPct_val m t hm ht
    rw [hv]
    set v : ℚ := rn53Val (pctProd m t) (pctProdDen m t) with hvdef
    set x : ℚ := (100 * m : ℚ) / t with hxdef
    set n₀ : ℕ := (200 * m + t) / (2 * t) with hn0
    set r : ℕ := (200 * m + t) % (2 * t) with hr
    have hdm : 2 * t * n₀ + r = 200 * m + t := Nat.div_add_mod (200 * m + t) (2 * t)
    have hrlt : r < 2 * t := Nat.mod_lt _ (by omega)
    have hr1 : 1 ≤ r := by omega
    have h2t : (0 : ℚ) < ((2 * t : ℕ) : ℚ) := by positivity
    have hx12 : x + 1 / 2 = (n₀ : ℚ) + (r : ℚ) / ((2 * t : ℕ) : ℚ) := by
      rw [hxdef]
      have hq : 2 * (t : ℚ) * n₀ + r = 200 * m + t := by exact_mod_cast hdm
      push_cast
      field_simp
      linear_combination (-2 * (t : ℚ)) * hq
    have hrq1 : (1 : ℚ) ≤ (r : ℚ) := by exact_mod_cast hr1
    have hrqlt : (r : ℚ) ≤ ((2 * t : ℕ) : ℚ) - 1 := by
      have h1 : r + 1 ≤ 2 * t := by omega
      have h2 : (r : ℚ) + 1 ≤ 2 * (t : ℚ) := by exact_mod_cast h1
      push_cast
      linarith
    have hgap_lo : (n₀ : ℚ) + 1 / ((2 * t : ℕ) : ℚ) ≤ x + 1 / 2 := by
      rw [hx12]
      have : 1 / ((2 * t : ℕ) : ℚ) ≤ (r : ℚ) / ((2 * t : ℕ) : ℚ) := by gcongr
      linarith
    have hgap_hi : x + 1 / 2 ≤ (n₀ : ℚ) + 1 - 1 / ((2 * t : ℕ) : ℚ) := by
      rw [hx12]
      have h1 : (r : ℚ) / ((2 * t : ℕ) : ℚ)
          ≤ (((2 * t : ℕ) : ℚ) - 1) / ((2 * t : ℕ) : ℚ) := by gcongr
      have h2 : (((2 * t : ℕ) : ℚ) - 1) / ((2 * t : ℕ) : ℚ)
          = 1 - 1 / ((2 * t : ℕ) : ℚ) := by
        field_simp
      linarith
    have hc51 : (2 : ℚ) ^ (-51 : ℤ) = 1 / 2251799813685248 := by
      rw [show (-51 : ℤ) = -(51 : ℤ) by norm_num, zpow_neg,
        show ((51 : ℤ)) = ((51 : ℕ) : ℤ) by norm_num, zpow_natCast]
      norm_num
    have hx100 : x ≤ 100 := by
      rw [hxdef, div_le_iff htq]
      have hmtq : (m : ℚ) ≤ t := by exact_mod_cast hmt
      nlinarith
    have hxpos : (0 : ℚ) < x := by
      rw [hxdef]
      have h1 : (0 : ℚ) < (m : ℚ) := by exact_mod_cast hm
      positivity
    have ht32q : ((2 * t : ℕ) : ℚ) ≤ 8589934592 := by
      have h1 : 2 * t ≤ 8589934592 := by omega
      exact_mod_cast h1
    have hεlt : x * (2 : ℚ) ^ (-51 : ℤ) < 1 / ((2 * t : ℕ) : ℚ) := by
      rw [lt_div_iff h2t, hc51]
      nlinarith [hx100, ht32q, h2t, hxpos]
    refine round_eq_of_close v x ((n₀ : ℕ) : ℤ) (1 / ((2 * t : ℕ) : ℚ))
      (x * (2 : ℚ) ^ (-51 : ℤ)) hεlt ?_ ?_ herr
    · push_cast
      push_cast at hgap_lo
      linarith
    · push_cast
      push_cast at hgap_hi
      linarith

end Binary64Lemmas

section FoldLemmas

/-- The must-have pass appends the matching skills, in order, to the first
accumulator component and the non-matching ones to the second. -/
lemma foldl_classifySkill_eq (p : String → Bool) (l : List String)
    (acc : List String × List String) :
    l.foldl (classifySkill p) acc
      = (acc.1 ++ l.filter p, acc.2 ++ l.filter (fun s => !(p s))) := by
  induction l generalizing acc with
  | nil => simp
  | cons s t ih =>
      by_cases hp : p s
      · simp [classifySkill, hp, ih, List.filter_cons]
      · simp [classifySkill, hp, ih, List.filter_cons]

/-- First component of one step of the good-to-have pass. -/
lemma checkSkill_fst (p : String → Bool) (acc : List String × List String)
    (s : String) :
    (checkSkill p acc s).1
      = if p s = true ∧ s ∉ acc.1 then acc.1 ++ [s] else acc.1 := by
  unfold checkSkill
  by_cases hp : p s
  · by_cases hs : s ∈ acc.1
    · rw [if_pos hp, if_pos hs, if_neg (by simp [hs])]
    · rw [if_pos hp, if_neg hs, if_pos ⟨hp, hs⟩]
  · have hrhs : (if p s = true ∧ s ∉ acc.1 then acc.1 ++ [s] else acc.1) = acc.1 :=
      if_neg (fun hc => hp hc.1)
    rw [if_neg hp, hrhs]
    split <;> rfl

/-- Second component of one step of the good-to-have pass. -/
lemma checkSkill_snd (p : String → Bool) (acc : List String × List String)
    (s : String) :
    (checkSkill p acc s).2
      = if p s = false ∧ s ∉ acc.2 then acc.2 ++ [s] else acc.2 := by
  unfold checkSkill
  by_cases hp : p s
  · have hrhs : (if p s = false ∧ s ∉ acc.2 then acc.2 ++ [s] else acc.2) = acc.2 :=
      if_neg (by simp [hp])
    rw [if_pos hp, hrhs]
    split <;> rfl
  · have hp' : p s = false := Bool.eq_false_iff.mpr hp
    by_cases hs : s ∈ acc.2
    · rw [if_neg hp, if_pos hs, if_neg (by simp [hs])]
    · rw [if_neg hp, if_neg hs, if_pos ⟨hp', hs⟩]

/-- Membership in the matched component after the good-to-have pass. -/
lemma mem_foldl_checkSkill_fst (p : String → Bool) (l : List String)
    (acc : List String × List String) (x : String) :
    x ∈ (l.foldl (checkSkill p) acc).1 ↔ x ∈ acc.1 ∨ (x ∈ l ∧ p x = true) := by
  induction l generalizing acc with
  | nil => simp
  | cons s t ih =>
      simp only [List.foldl_cons, ih, List.mem_cons]
      rw [checkSkill_fst]
      by_cases hp : p s
      · by_cases hs : s ∈ acc.1
        · rw [if_neg (by simp [hs])]
          constructor
          · rintro (h | h)
            · exact Or.inl h
            · exact Or.inr ⟨Or.inr h.1, h.2⟩
          · rintro (h | ⟨(rfl | h), hx⟩)
            · exact Or.inl h
            · exact Or.inl hs
            · exact Or.inr ⟨h, hx⟩
        · rw [if_pos ⟨hp, hs⟩]
          simp only [List.mem_append, List.mem_singleton]
          constructor
          · rintro ((h | rfl) | h)
            · exact Or.inl h
            · exact Or.inr ⟨Or.inl rfl, hp⟩
            · exact Or.inr ⟨Or.inr h.1, h.2⟩
          · rintro (h | ⟨(rfl | h), hx⟩)
            · exact Or.inl (Or.inl h)
            · exact Or.inl (Or.inr rfl)
            · exact Or.inr ⟨h, hx⟩
      · rw [if_neg (by simp [hp])]
        constructor
        · rintro (h | h)
          · exact Or.inl h
          · exact Or.inr ⟨Or.inr h.1, h.2⟩
        · rintro (h | ⟨(rfl | h), hx⟩)
          · exact Or.inl h
          · exact absurd hx hp
          · exact Or.inr ⟨h, hx⟩

/-- Membership in the missing component after the good-to-have pass. -/
lemma mem_foldl_checkSkill_snd (p : String → Bool) (l : List String)
    (acc : List String × List String) (x : String) :
    x ∈ (l.foldl (checkSkill p) acc).2 ↔ x ∈ acc.2 ∨ (x ∈ l ∧ p x = false) := by
  induction l generalizing acc with
  | nil => simp
  | cons s t ih =>
      simp only [List.foldl_cons, ih, List.mem_cons]
      rw [checkSkill_snd]
      by_cases hp : p s
      · rw [if_neg (by simp [hp])]
        constructor
        · rintro (h | h)
          · exact Or.inl h
          · exact Or.inr ⟨Or.inr h.1, h.2⟩
        · rintro (h | ⟨(rfl | h), hx⟩)
          · exact Or.inl h
          · rw [hp] at hx; cases hx
          · exact Or.inr ⟨h, hx⟩
      · have hp' : p s = false := Bool.eq_false_iff.mpr hp
        by_cases hs : s ∈ acc.2
        · rw [if_neg (by simp [hs])]
          constructor
          · rintro (h | h)
            · exact Or.inl h
            · exact Or.inr ⟨Or.inr h.1, h.2⟩
          · rintro (h | ⟨(rfl | h), hx⟩)
            · exact Or.inl h
            · exact Or.inl hs
            · exact Or.inr ⟨h, hx⟩
        · rw [if_pos ⟨hp', hs⟩]
          simp only [List.mem_append, List.mem_singleton]
          constructor
          · rintro ((h | rfl) | h)
            · exact Or.inl h
            · exact Or.inr ⟨Or.inl rfl, hp'⟩
            · exact Or.inr ⟨Or.inr h.1, h.2⟩
          · rintro (h | ⟨(rfl | h), hx⟩)
            · exact Or.inl (Or.inl h)
            · exact Or.inl (Or.inr rfl)
            · exact Or.inr ⟨h, hx⟩

end FoldLemmas

section SublistLemmas

/-- The good-to-have pass only appends, in order, matching skills taken from
the traversed list. -/
lemma foldl_checkSkill_fst_append (p : String → Bool) (l : List String)
    (acc : List String × List String) :
    ∃ t, (l.foldl (checkSkill p) acc).1 = acc.1 ++ t ∧ t.Sublist l
      ∧ ∀ x ∈ t, p x = true := by
  induction l generalizing acc with
  | nil => exact ⟨[], by simp, List.nil_sublist _, by simp⟩
  | cons s l' ih =>
      obtain ⟨t', ht', hsub, hall⟩ := ih (checkSkill p acc s)
      rw [List.foldl_cons]
      rw [checkSkill_fst] at ht'
      by_cases hc : p s = true ∧ s ∉ acc.1
      · rw [if_pos hc] at ht'
        refine ⟨s :: t', ?_, List.Sublist.cons₂ s hsub, ?_⟩
        · rw [ht', List.append_assoc]
          rfl
        · intro x hx
          rcases List.mem_cons.mp hx with rfl | hx
          · exact hc.1
          · exact hall x hx
      · rw [if_neg hc] at ht'
        exact ⟨t', ht', List.Sublist.cons s hsub, hall⟩

/-- The good-to-have pass only appends, in order, non-matching skills taken
from the traversed list to the missing component. -/
lemma foldl_checkSkill_snd_append (p : String → Bool) (l : List String)
    (acc : List String × List String) :
    ∃ t, (l.foldl (checkSkill p) acc).2 = acc.2 ++ t ∧ t.Sublist l
      ∧ ∀ x ∈ t, p x = false := by
  induction l generalizing acc with
  | nil => exact ⟨[], by simp, List.nil_sublist _, by simp⟩
  | cons s l' ih =>
      obtain ⟨t', ht', hsub, hall⟩ := ih (checkSkill p acc s)
      rw [List.foldl_cons]
      rw [checkSkill_snd] at ht'
      by_cases hc : p s = false ∧ s ∉ acc.2
      · rw [if_pos hc] at ht'
        refine ⟨s :: t', ?_, List.Sublist.cons₂ s hsub, ?_⟩
        · rw [ht', List.append_assoc]
          rfl
        · intro x hx
          rcases List.mem_cons.mp hx with rfl | hx
          · exact hc.1
          · exact hall x hx
      · rw [if_neg hc] at ht'
        exact ⟨t', ht', List.Sublist.cons s hsub, hall⟩

end SublistLemmas

section HardMatchLemmas

/-- The matched list of performHardMatch is the matching must-have skills in
order, followed by a subsequence of the good-to-have skills consisting of
matching skills. -/
lemma performHardMatch_matched_decomp (resumeText : String) (jd : JobDescription) :
    ∃ t, (performHardMatch resumeText jd).matched_skills
        = jd.must_have_skills.filter (isSkillMatched (toLowerList resumeText.data)) ++ t
      ∧ t.Sublist jd.good_to_have_skills
      ∧ ∀ x ∈ t, isSkillMatched (toLowerList resumeText.data) x = true := by
  obtain ⟨t, ht, hsub, hall⟩ :=
    foldl_checkSkill_fst_append (isSkillMatched (toLowerList resumeText.data))
      jd.good_to_have_skills
      (jd.must_have_skills.foldl (classifySkill (isSkillMatched (toLowerList resumeText.data))) ([], []))
  refine ⟨t, ?_, hsub, hall⟩
  show (jd.good_to_have_skills.foldl (checkSkill (isSkillMatched (toLowerList resumeText.data)))
      (jd.must_have_skills.foldl (classifySkill (isSkillMatched (toLowerList resumeText.data))) ([], []))).1 = _
  rw [ht, foldl_classifySkill_eq]
  simp

/-- The missing list of performHardMatch is the non-matching must-have skills
in order, followed by a subsequence of the good-to-have skills consisting of
non-matching skills. -/
lemma performHardMatch_missing_decomp (resumeText : String) (jd : JobDescription) :
    ∃ t, (performHardMatch resumeText jd).missing_skills
        = jd.must_have_skills.filter (fun s => !(isSkillMatched (toLowerList resumeText.data) s)) ++ t
      ∧ t.Sublist jd.good_to_have_skills
      ∧ ∀ x ∈ t, isSkillMatched (toLowerList resumeText.data) x = false := by
  obtain ⟨t, ht, hsub, hall⟩ :=
    foldl_checkSkill_snd_append (isSkillMatched (toLowerList resumeText.data))
      jd.good_to_have_skills
      (jd.must_have_skills.foldl (classifySkill (isSkillMatched (toLowerList resumeText.data))) ([], []))
  refine ⟨t, ?_, hsub, hall⟩
  show (jd.good_to_have_skills.foldl (checkSkill (isSkillMatched (toLowerList resumeText.data)))
      (jd.must_have_skills.foldl (classifySkill (isSkillMatched (toLowerList resumeText.data))) ([], []))).2 = _
  rw [ht, foldl_classifySkill_eq]
  simp

/-- Membership characterization of the matched list. -/
lemma mem_performHardMatch_matched (resumeText : String) (jd : JobDescription) (x : String) :
    x ∈ (performHardMatch resumeText jd).matched_skills
      ↔ (x ∈ jd.must_have_skills ∨ x ∈ jd.good_to_have_skills)
        ∧ isSkillMatched (toLowerList resumeText.data) x = true := by
  show x ∈ (jd.good_to_have_skills.foldl (checkSkill (isSkillMatched (toLowerList resumeText.data)))
      (jd.must_have_skills.foldl (classifySkill (isSkillMatched (toLowerList resumeText.data))) ([], []))).1 ↔ _
  rw [mem_foldl_checkSkill_fst, foldl_classifySkill_eq]
  simp only [List.nil_append, List.mem_filter]
  tauto

/-- Membership characterization of the missing list. -/
lemma mem_performHardMatch_missing (resumeText : String) (jd : JobDescription) (x : String) :
    x ∈ (performHardMatch resumeText jd).missing_skills
      ↔ (x ∈ jd.must_have_skills ∨ x ∈ jd.good_to_have_skills)
        ∧ isSkillMatched (toLowerList resumeText.data) x = false := by
  show x ∈ (jd.good_to_have_skills.foldl (checkSkill (isSkillMatched (toLowerList resumeText.data)))
      (jd.must_have_skills.foldl (classifySkill (isSkillMatched (toLowerList resumeText.data))) ([], []))).2 ↔ _
  rw [mem_foldl_checkSkill_snd, foldl_classifySkill_eq]
  simp only [List.nil_append, List.mem_filter, Bool.not_eq_true']
  tauto

/-- The score field of performHardMatch, expressed with the matched list. -/
lemma performHardMatch_score_eq (resumeText : String) (jd : JobDescription) :
    (performHardMatch resumeText jd).hard_match_score
      = if 0 < jd.must_have_skills.length + jd.good_to_have_skills.length
        then (jsPct (performHardMatch resumeText jd).matched_skills.length
          (jd.must_have_skills.length + jd.good_to_have_skills.length) : ℤ)
        else 0 := rfl

/-- The matched list never exceeds the total number of listed skills. -/
lemma performHardMatch_matched_length_le (resumeText : String) (jd : JobDescription) :
    (performHardMatch resumeText jd).matched_skills.length
      ≤ jd.must_have_skills.length + jd.good_to_have_skills.length := by
  obtain ⟨t, ht, hsub, -⟩ := performHardMatch_matched_decomp resumeText jd
  rw [ht, List.length_append]
  have h1 := List.length_filter_le (isSkillMatched (toLowerList resumeText.data)) jd.must_have_skills
  have h2 := hsub.length_le
  omega

/-- The critical missing list is the missing list filtered by membership in
the must-have list. -/
lemma performHardMatch_critical_eq (resumeText : String) (jd : JobDescription) :
    (performHardMatch resumeText jd).critical_missing_skills
      = (performHardMatch resumeText jd).missing_skills.filter
          (fun skill => decide (skill ∈ jd.must_have_skills)) := rfl

end HardMatchLemmas

section SampleInputs

/-- A job description with empty skill lists. -/
def jdEmpty : JobDescription :=
  { title := "", company := "", description := "", must_have_skills := []
    good_to_have_skills := [], experience_required := "", education_required := [] }

/-- A job description listing the same skill as must-have and good-to-have. -/
def jdReactTwice : JobDescription :=
  { title := "", company := "", description := "", must_have_skills := ["React"]
    good_to_have_skills := ["React"], experience_required := "", education_required := [] }

/-- The job description of the scenario in the testable properties of the
spec. -/
def scenarioJob : JobDescription :=
  { title := "", company := "", description := ""
    must_have_skills := ["JavaScript", "React", "Node.js"]
    good_to_have_skills := ["TypeScript", "AWS"]
    experience_required := "", education_required := [] }

/-- A parsed semantic object carrying only a score, with every optional
field absent. -/
def bareSemantic (s : ℤ) : SemanticData :=
  { semantic_match_score := s, strengths := none, weaknesses := none
    missing_certifications := none, missing_projects := none
    experience_gaps := none, education_gaps := none
    improvement_suggestions := none, recommended_courses := none
    recommended_projects := none, immediate_actions := none
    short_term_goals := none, long_term_goals := none
    skills_breakdown := none, scoring_breakdown := none, confidence_score := none }

end SampleInputs

/-- Hard-match score as claim C3 states it: the denominator is the number of
distinct skills in the union of the two lists, duplicates collapsed by exact
string, and the score is 0 when the union is empty. -/
def claimHardMatchScore (matched mustHave goodToHave : List String) : ℤ :=
  let union := (mustHave ++ goodToHave).dedup
  if union.length = 0 then 0 else round ((100 * matched.length : ℚ) / union.length)

/-- The score field of simplePerformHardMatch, expressed with its matched
list. -/
lemma simplePerformHardMatch_score_eq (resumeText : String) (jd : JobDescription) :
    (simplePerformHardMatch resumeText jd).hard_match_score
      = if 0 < jd.must_have_skills.length + jd.good_to_have_skills.length
        then (jsPct (simplePerformHardMatch resumeText jd).matched_skills.length
          (jd.must_have_skills.length + jd.good_to_have_skills.length) : ℤ)
        else 50 := rfl

/-- C1: for hard and semantic scores that are integers in the range 0 to
100, the relevance score produced by combineAnalysisResults equals the
rounded weighted sum round (0.4 hard + 0.6 semantic) exactly. -/
theorem combine_relevance_is_weighted_round (hm : HardMatchResult) (sem : SemanticData)
    (jd : JobDescription) (ts : String)
    (h1 : 0 ≤ hm.hard_match_score) (h2 : hm.hard_match_score ≤ 100)
    (h3 : 0 ≤ sem.semantic_match_score) (h4 : sem.semantic_match_score ≤ 100) :
    (combineAnalysisResults hm sem jd ts).relevance_score
      = round ((0.4 : ℚ) * hm.hard_match_score + (0.6 : ℚ) * sem.semantic_match_score) := by
  show combineRound hm.hard_match_score sem.semantic_match_score = _
  exact combineRound_eq_round _ _

/-- Witness for C1, at the spec scenario hard 40 and semantic 90. -/
theorem combine_relevance_is_weighted_round_witness :
    0 ≤ (HardMatchResult.mk 40 [] [] []).hard_match_score
    ∧ (HardMatchResult.mk 40 [] [] []).hard_match_score ≤ 100
    ∧ 0 ≤ (bareSemantic 90).semantic_match_score
    ∧ (bareSemantic 90).semantic_match_score ≤ 100
    ∧ (combineAnalysisResults (HardMatchResult.mk 40 [] [] []) (bareSemantic 90) jdEmpty "").relevance_score
      = round ((0.4 : ℚ) * (HardMatchResult.mk 40 [] [] []).hard_match_score
          + (0.6 : ℚ) * (bareSemantic 90).semantic_match_score) :=
  ⟨by decide, by decide, by decide, by decide,
    combine_relevance_is_weighted_round (HardMatchResult.mk 40 [] [] []) (bareSemantic 90)
      jdEmpty "" (by decide) (by decide) (by decide) (by decide)⟩

/-- C2 counterexample: the verdict computation of
SimpleAnalysisService.generateComprehensiveAnalysis maps the relevance score
55, which lies in the claimed Medium band 50 to 79, to Low, because that
implementation uses 60 as the lower Medium threshold. -/
theorem simple_verdict_55_low :
    (50 ≤ (55 : ℤ) ∧ (55 : ℤ) < 80) ∧ simpleAnalysisVerdict 55 ≠ Verdict.Medium
      ∧ simpleAnalysisVerdict 55 = Verdict.Low := by
  decide

/-- C2 amended: verdict bucketing is a pure total function of the relevance
score with no gaps and no overlaps in every implementation; the
EnhancedAnalysisService combination step and AIAnalysisService.generateVerdict
use the 80/50 thresholds, while SimpleAnalysisService uses 80/60. -/
theorem verdict_bucketing_by_implementation (s : ℤ) :
    ((generateVerdict s = Verdict.High ↔ 80 ≤ s)
      ∧ (generateVerdict s = Verdict.Medium ↔ 50 ≤ s ∧ s < 80)
      ∧ (generateVerdict s = Verdict.Low ↔ s < 50))
    ∧ ((simpleAnalysisVerdict s = Verdict.High ↔ 80 ≤ s)
      ∧ (simpleAnalysisVerdict s = Verdict.Medium ↔ 60 ≤ s ∧ s < 80)
      ∧ (simpleAnalysisVerdict s = Verdict.Low ↔ s < 60))
    ∧ (∀ (hm : HardMatchResult) (sem : SemanticData) (jd : JobDescription) (ts : String),
        (combineAnalysisResults hm sem jd ts).verdict
          = generateVerdict (combineAnalysisResults hm sem jd ts).relevance_score) := by
  refine ⟨⟨?_, ?_, ?_⟩, ⟨?_, ?_, ?_⟩, fun hm sem jd ts => rfl⟩ <;>
  · simp only [generateVerdict, simpleAnalysisVerdict]
    split_ifs <;> simp_all <;> omega

/-- C3 counterexample: with must-have ["React"] and good-to-have ["React"]
and a resume containing react, the code divides by the summed list lengths
(2), giving score 50, while the claimed formula with the deduplicated union
(1 distinct skill) gives 100. -/
theorem hard_score_duplicate_denominator :
    (performHardMatch "react" jdReactTwice).matched_skills = ["React"]
    ∧ (performHardMatch "react" jdReactTwice).hard_match_score = 50
    ∧ claimHardMatchScore (performHardMatch "react" jdReactTwice).matched_skills
        jdReactTwice.must_have_skills jdReactTwice.good_to_have_skills = 100
    ∧ (50 : ℤ) ≠ 100 := by
  refine ⟨by decide, by decide, ?_, by decide⟩
  have hm : (performHardMatch "react" jdReactTwice).matched_skills = ["React"] := by decide
  have hu : (jdReactTwice.must_have_skills ++ jdReactTwice.good_to_have_skills).dedup
      = ["React"] := by decide
  unfold claimHardMatchScore
  rw [hm, hu]
  norm_num

/-- The matched list of simplePerformHardMatch never exceeds the total
number of listed skills. -/
lemma simplePerformHardMatch_matched_length_le (resumeText : String) (jd : JobDescription) :
    (simplePerformHardMatch resumeText jd).matched_skills.length
      ≤ jd.must_have_skills.length + jd.good_to_have_skills.length := by
  show ((jd.must_have_skills ++ jd.good_to_have_skills).foldl
      (classifySkill (isSkillMatched (toLowerList resumeText.data))) ([], [])).1.length ≤ _
  rw [foldl_classifySkill_eq]
  simp only [List.nil_append]
  calc (List.filter (isSkillMatched (toLowerList resumeText.data))
        (jd.must_have_skills ++ jd.good_to_have_skills)).length
      ≤ (jd.must_have_skills ++ jd.good_to_have_skills).length :=
        List.length_filter_le _ _
    _ = jd.must_have_skills.length + jd.good_to_have_skills.length :=
        List.length_append _ _

/-- C3 amended: the hard-match score is Math.round applied to the
IEEE-double evaluation of (|matched| / total) * 100, where total is the sum
of the lengths of the two skill lists, duplicates counted.  For totals in
the JavaScript array-length range this agrees with the exact rounding
round (100 |matched| / total) whenever that quantity is not exactly a
half-integer; at a half-integer tie the double evaluation can land one
below, as at 23 matched of 40, where JavaScript returns 57 while exact
rounding gives 58.  When both lists are empty, EnhancedAnalysisService
returns the default 0 and the SimpleAnalysisService variant returns 50,
with no division by zero. -/
theorem hard_score_length_denominator (resumeText : String) (jd : JobDescription) :
    (jd.must_have_skills.length + jd.good_to_have_skills.length = 0 →
      (performHardMatch resumeText jd).hard_match_score = 0
      ∧ (simplePerformHardMatch resumeText jd).hard_match_score = 50)
    ∧ (0 < jd.must_have_skills.length + jd.good_to_have_skills.length →
      jd.must_have_skills.length + jd.good_to_have_skills.length ≤ 2 ^ 32 →
      ((200 * (performHardMatch resumeText jd).matched_skills.length
          + (jd.must_have_skills.length + jd.good_to_have_skills.length))
        % (2 * (jd.must_have_skills.length + jd.good_to_have_skills.length)) ≠ 0 →
        (performHardMatch resumeText jd).hard_match_score
          = round ((100 * (performHardMatch resumeText jd).matched_skills.length : ℚ)
              / (jd.must_have_skills.length + jd.good_to_have_skills.length)))
      ∧ ((200 * (simplePerformHardMatch resumeText jd).matched_skills.length
          + (jd.must_have_skills.length + jd.good_to_have_skills.length))
        % (2 * (jd.must_have_skills.length + jd.good_to_have_skills.length)) ≠ 0 →
        (simplePerformHardMatch resumeText jd).hard_match_score
          = round ((100 * (simplePerformHardMatch resumeText jd).matched_skills.length : ℚ)
              / (jd.must_have_skills.length + jd.good_to_have_skills.length))))
    ∧ ((jsPct 23 40 : ℤ) = 57 ∧ round ((100 * 23 : ℚ) / 40) = 58) := by
  refine ⟨?_, ?_, by decide, ?_⟩
  · intro h0
    constructor
    · rw [performHardMatch_score_eq, if_neg (by omega)]
    · rw [simplePerformHardMatch_score_eq, if_neg (by omega)]
  · intro ht h32
    constructor
    · intro htie
      rw [performHardMatch_score_eq, if_pos (by omega)]
      push_cast
      exact_mod_cast jsPct_eq_round _ _ (performHardMatch_matched_length_le resumeText jd)
        ht h32 htie
    · intro htie
      rw [simplePerformHardMatch_score_eq, if_pos (by omega)]
      push_cast
      exact_mod_cast jsPct_eq_round _ _
        (simplePerformHardMatch_matched_length_le resumeText jd) ht h32 htie
  · rw [show ((100 * 23 : ℚ) / 40) = 575 / 10 by norm_num]
    rw [round_eq]
    norm_num

/-- Witness for C3, at the scenario input with 3 matched of 5 listed
skills. -/
theorem hard_score_length_denominator_witness :
    0 < scenarioJob.must_have_skills.length + scenarioJob.good_to_have_skills.length
    ∧ scenarioJob.must_have_skills.length + scenarioJob.good_to_have_skills.length ≤ 2 ^ 32
    ∧ (200 * (performHardMatch "React typescript" scenarioJob).matched_skills.length
        + (scenarioJob.must_have_skills.length + scenarioJob.good_to_have_skills.length))
      % (2 * (scenarioJob.must_have_skills.length + scenarioJob.good_to_have_skills.length)) ≠ 0
    ∧ (performHardMatch "React typescript" scenarioJob).hard_match_score
      = round ((100 * (performHardMatch "React typescript" scenarioJob).matched_skills.length : ℚ)
          / (scenarioJob.must_have_skills.length + scenarioJob.good_to_have_skills.length)) :=
  ⟨by decide, by decide, by decide,
    ((hard_score_length_denominator "React typescript" scenarioJob).2.1
      (by decide) (by decide)).1 (by decide)⟩

/-- C4: the hard-match result partitions the union of the two skill lists:
a string belongs to matched or missing exactly when it belongs to the
must-have or good-to-have list, and no string is in both matched and
missing. -/
theorem hard_match_partitions_union (resumeText : String) (jd : JobDescription) :
    (∀ s, (s ∈ (performHardMatch resumeText jd).matched_skills
        ∨ s ∈ (performHardMatch resumeText jd).missing_skills)
      ↔ (s ∈ jd.must_have_skills ∨ s ∈ jd.good_to_have_skills))
    ∧ ∀ s, ¬ (s ∈ (performHardMatch resumeText jd).matched_skills
        ∧ s ∈ (performHardMatch resumeText jd).missing_skills) := by
  constructor
  · intro s
    rw [mem_performHardMatch_matched, mem_performHardMatch_missing]
    constructor
    · rintro (⟨h, -⟩ | ⟨h, -⟩) <;> exact h
    · intro h
      cases hx : isSkillMatched (toLowerList resumeText.data) s
      · exact Or.inr ⟨h, rfl⟩
      · exact Or.inl ⟨h, rfl⟩
  · rintro s ⟨h1, h2⟩
    rw [mem_performHardMatch_matched] at h1
    rw [mem_performHardMatch_missing] at h2
    rw [h1.2] at h2
    exact absurd h2.2 (by simp)

/-- C5: the critical missing skills of a hard-match result are exactly the
intersection of the missing skills with the must-have list, hence a subset
of it. -/
theorem critical_missing_is_intersection (resumeText : String) (jd : JobDescription) :
    ((performHardMatch resumeText jd).critical_missing_skills
      ⊆ (performHardMatch resumeText jd).missing_skills ∩ jd.must_have_skills)
    ∧ ∀ s, s ∈ (performHardMatch resumeText jd).critical_missing_skills
        ↔ s ∈ (performHardMatch resumeText jd).missing_skills ∧ s ∈ jd.must_have_skills := by
  have hmem : ∀ s, s ∈ (performHardMatch resumeText jd).critical_missing_skills
      ↔ s ∈ (performHardMatch resumeText jd).missing_skills ∧ s ∈ jd.must_have_skills := by
    intro s
    rw [performHardMatch_critical_eq, List.mem_filter]
    simp
  refine ⟨?_, hmem⟩
  intro s hs
  rw [List.mem_inter_iff]
  exact (hmem s).mp hs

/-- Witness for C5 at a concrete resume and job. -/
theorem critical_missing_is_intersection_witness :
    "Node.js" ∈ (performHardMatch "React typescript" scenarioJob).critical_missing_skills
      ↔ "Node.js" ∈ (performHardMatch "React typescript" scenarioJob).missing_skills
        ∧ "Node.js" ∈ scenarioJob.must_have_skills :=
  (critical_missing_is_intersection "React typescript" scenarioJob).2 "Node.js"

/-- C6: on every failure outcome of the provider call or of the JSON
extraction or decoding, performLLMAnalysis returns the fixed fallback
semantic object with score 65, and the overall analysis still returns the
complete report built from the hard match and the fallback values. -/
theorem semantic_failure_yields_fallback_report (resumeText : String)
    (jd : JobDescription) (ts : String) :
    performLLMAnalysis LLMOutcome.providerFailure = getFallbackSemanticAnalysis
    ∧ performLLMAnalysis LLMOutcome.noJsonFound = getFallbackSemanticAnalysis
    ∧ performLLMAnalysis LLMOutcome.parseError = getFallbackSemanticAnalysis
    ∧ getFallbackSemanticAnalysis.semantic_match_score = 65
    ∧ analyzeResumeEnhanced resumeText jd LLMOutcome.providerFailure ts
        = combineAnalysisResults (performHardMatch resumeText jd) getFallbackSemanticAnalysis jd ts
    ∧ analyzeResumeEnhanced resumeText jd LLMOutcome.noJsonFound ts
        = combineAnalysisResults (performHardMatch resumeText jd) getFallbackSemanticAnalysis jd ts
    ∧ analyzeResumeEnhanced resumeText jd LLMOutcome.parseError ts
        = combineAnalysisResults (performHardMatch resumeText jd) getFallbackSemanticAnalysis jd ts
    ∧ (analyzeResumeEnhanced resumeText jd LLMOutcome.providerFailure ts).semantic_match_score
        = 65 :=
  ⟨rfl, rfl, rfl, rfl, rfl, rfl, rfl, rfl⟩

/-- C7 counterexample: for the spec scenario (must-have JavaScript, React,
Node.js; good-to-have TypeScript, AWS; resume containing React and
typescript and no other skill name), the code also matches JavaScript,
because the resume word react appears in the variation table entry of
javascript; the hard score is therefore 60, not the claimed 40. -/
theorem scenario_react_typescript_actual :
    strIncludes (toLowerList "React typescript".data) (toLowerList "React".data) = true
    ∧ strIncludes (toLowerList "React typescript".data) (toLowerList "typescript".data) = true
    ∧ strIncludes (toLowerList "React typescript".data) "javascript".data = false
    ∧ strIncludes (toLowerList "React typescript".data) "node.js".data = false
    ∧ strIncludes (toLowerList "React typescript".data) "aws".data = false
    ∧ "JavaScript" ∈ (performHardMatch "React typescript" scenarioJob).matched_skills
    ∧ "JavaScript" ∉ (performHardMatch "React typescript" scenarioJob).missing_skills
    ∧ (performHardMatch "React typescript" scenarioJob).hard_match_score ≠ 40 := by
  decide

/-- C7 amended: on the scenario input the hard match yields matched =
JavaScript, React, TypeScript (JavaScript through its react variation),
missing = Node.js, AWS, critical missing = Node.js, and score
round (100 * 3 / 5) = 60. -/
theorem scenario_react_typescript_amended :
    (performHardMatch "React typescript" scenarioJob).matched_skills
      = ["JavaScript", "React", "TypeScript"]
    ∧ (performHardMatch "React typescript" scenarioJob).missing_skills = ["Node.js", "AWS"]
    ∧ (performHardMatch "React typescript" scenarioJob).critical_missing_skills = ["Node.js"]
    ∧ (performHardMatch "React typescript" scenarioJob).hard_match_score = 60
    ∧ round ((100 * 3 : ℚ) / 5) = 60 := by
  refine ⟨by decide, by decide, by decide, by decide, ?_⟩
  norm_num

/-- The hard-match score always lies between 0 and 100. -/
lemma performHardMatch_score_bounds (resumeText : String) (jd : JobDescription) :
    0 ≤ (performHardMatch resumeText jd).hard_match_score
    ∧ (performHardMatch resumeText jd).hard_match_score ≤ 100 := by
  rw [performHardMatch_score_eq]
  by_cases h : 0 < jd.must_have_skills.length + jd.good_to_have_skills.length
  · rw [if_pos h]
    constructor
    · exact Int.natCast_nonneg _
    · have := jsPct_le_100 _ _ (performHardMatch_matched_length_le resumeText jd) h
      exact_mod_cast this
  · rw [if_neg h]
    omega

/-- combineRound maps score pairs in the range 0 to 100 into that range. -/
lemma combineRound_bounds {h s : ℤ} (h1 : 0 ≤ h) (h2 : h ≤ 100)
    (h3 : 0 ≤ s) (h4 : s ≤ 100) :
    0 ≤ combineRound h s ∧ combineRound h s ≤ 100 := by
  rw [combineRound_eq_round]
  have hq1 : (h : ℚ) ≤ 100 := by exact_mod_cast h2
  have hq2 : (0 : ℚ) ≤ (h : ℚ) := by exact_mod_cast h1
  have hq3 : (s : ℚ) ≤ 100 := by exact_mod_cast h4
  have hq4 : (0 : ℚ) ≤ (s : ℚ) := by exact_mod_cast h3
  exact round_bounds (by nlinarith) (by nlinarith)

/-- The parseAIResponse clamp always produces a value in the range 0 to
100. -/
lemma parseAIClampedScore_bounds (v : Option ℤ) :
    0 ≤ parseAIClampedScore v ∧ parseAIClampedScore v ≤ 100 := by
  unfold parseAIClampedScore jsOrInt
  cases v with
  | none => decide
  | some x =>
      simp only []
      split <;> omega

/-- C8 counterexample: EnhancedAnalysisService passes the parsed LLM score
through unclamped, so a parsed semantic score of 200 yields a report with
semantic score 200 and relevance score 120, both outside the range 0 to
100. -/
theorem parsed_score_unclamped_escapes_range :
    (analyzeResumeEnhanced "" jdEmpty (LLMOutcome.parsed (bareSemantic 200)) "").semantic_match_score
        = 200
    ∧ (analyzeResumeEnhanced "" jdEmpty (LLMOutcome.parsed (bareSemantic 200)) "").relevance_score
        = 120
    ∧ ¬ ((analyzeResumeEnhanced "" jdEmpty (LLMOutcome.parsed (bareSemantic 200)) "").semantic_match_score ≤ 100)
    ∧ ¬ ((analyzeResumeEnhanced "" jdEmpty (LLMOutcome.parsed (bareSemantic 200)) "").relevance_score ≤ 100) := by
  decide

/-- C8 amended: provided the parsed semantic score is an integer in the
range 0 to 100 (which the fallback object and the prompt contract ensure,
and which AIAnalysisService.parseAIResponse enforces by clamping), the hard,
semantic and relevance scores of the report all lie in the range 0 to
100. -/
theorem report_scores_in_range (resumeText : String) (jd : JobDescription) (ts : String)
    (sem : SemanticData) (h1 : 0 ≤ sem.semantic_match_score)
    (h2 : sem.semantic_match_score ≤ 100) :
    (0 ≤ (analyzeResumeEnhanced resumeText jd (LLMOutcome.parsed sem) ts).hard_match_score
      ∧ (analyzeResumeEnhanced resumeText jd (LLMOutcome.parsed sem) ts).hard_match_score ≤ 100)
    ∧ (0 ≤ (analyzeResumeEnhanced resumeText jd (LLMOutcome.parsed sem) ts).semantic_match_score
      ∧ (analyzeResumeEnhanced resumeText jd (LLMOutcome.parsed sem) ts).semantic_match_score ≤ 100)
    ∧ (0 ≤ (analyzeResumeEnhanced resumeText jd (LLMOutcome.parsed sem) ts).relevance_score
      ∧ (analyzeResumeEnhanced resumeText jd (LLMOutcome.parsed sem) ts).relevance_score ≤ 100)
    ∧ ∀ v, 0 ≤ parseAIClampedScore v ∧ parseAIClampedScore v ≤ 100 := by
  have hhard := performHardMatch_score_bounds resumeText jd
  have hsem1 : (analyzeResumeEnhanced resumeText jd (LLMOutcome.parsed sem) ts).semantic_match_score
      = sem.semantic_match_score := rfl
  have hhard1 : (analyzeResumeEnhanced resumeText jd (LLMOutcome.parsed sem) ts).hard_match_score
      = (performHardMatch resumeText jd).hard_match_score := rfl
  have hrel : (analyzeResumeEnhanced resumeText jd (LLMOutcome.parsed sem) ts).relevance_score
      = combineRound (performHardMatch resumeText jd).hard_match_score sem.semantic_match_score := rfl
  refine ⟨?_, ?_, ?_, parseAIClampedScore_bounds⟩
  · rw [hhard1]
    exact hhard
  · rw [hsem1]
    exact ⟨h1, h2⟩
  · rw [hrel]
    exact combineRound_bounds hhard.1 hhard.2 h1 h2

/-- Witness for C8, at the fallback semantic object whose score is 65. -/
theorem report_scores_in_range_witness :
    0 ≤ getFallbackSemanticAnalysis.semantic_match_score
    ∧ getFallbackSemanticAnalysis.semantic_match_score ≤ 100
    ∧ ((0 ≤ (analyzeResumeEnhanced "" jdEmpty (LLMOutcome.parsed getFallbackSemanticAnalysis) "").hard_match_score
      ∧ (analyzeResumeEnhanced "" jdEmpty (LLMOutcome.parsed getFallbackSemanticAnalysis) "").hard_match_score ≤ 100)
    ∧ (0 ≤ (analyzeResumeEnhanced "" jdEmpty (LLMOutcome.parsed getFallbackSemanticAnalysis) "").semantic_match_score
      ∧ (analyzeResumeEnhanced "" jdEmpty (LLMOutcome.parsed getFallbackSemanticAnalysis) "").semantic_match_score ≤ 100)
    ∧ (0 ≤ (analyzeResumeEnhanced "" jdEmpty (LLMOutcome.parsed getFallbackSemanticAnalysis) "").relevance_score
      ∧ (analyzeResumeEnhanced "" jdEmpty (LLMOutcome.parsed getFallbackSemanticAnalysis) "").relevance_score ≤ 100)
    ∧ ∀ v, 0 ≤ parseAIClampedScore v ∧ parseAIClampedScore v ≤ 100) :=
  ⟨by decide, by decide,
    report_scores_in_range "" jdEmpty "" getFallbackSemanticAnalysis (by decide) (by decide)⟩

/-- C9: combineAnalysisResults substitutes a fixed default for each absent
optional field of the semantic object: the empty list for every qualitative
list field, an all-empty skills breakdown, 85 for the confidence score
(also when the parsed confidence score is the falsy 0), and a synthesized
scoring breakdown taking the hard-match score, 70, 60, 65 and the relevance
score; the returned report therefore has every field defined. -/
theorem combine_substitutes_defaults (hm : HardMatchResult) (jd : JobDescription)
    (ts : String) (s : ℤ) (sem : SemanticData) :
    (combineAnalysisResults hm (bareSemantic s) jd ts).missing_certifications = []
    ∧ (combineAnalysisResults hm (bareSemantic s) jd ts).missing_projects = []
    ∧ (combineAnalysisResults hm (bareSemantic s) jd ts).experience_gaps = []
    ∧ (combineAnalysisResults hm (bareSemantic s) jd ts).education_gaps = []
    ∧ (combineAnalysisResults hm (bareSemantic s) jd ts).strengths = []
    ∧ (combineAnalysisResults hm (bareSemantic s) jd ts).weaknesses = []
    ∧ (combineAnalysisResults hm (bareSemantic s) jd ts).improvement_suggestions = []
    ∧ (combineAnalysisResults hm (bareSemantic s) jd ts).recommended_courses = []
    ∧ (combineAnalysisResults hm (bareSemantic s) jd ts).recommended_projects = []
    ∧ (combineAnalysisResults hm (bareSemantic s) jd ts).immediate_actions = []
    ∧ (combineAnalysisResults hm (bareSemantic s) jd ts).short_term_goals = []
    ∧ (combineAnalysisResults hm (bareSemantic s) jd ts).long_term_goals = []
    ∧ (combineAnalysisResults hm (bareSemantic s) jd ts).skills_breakdown
        = ⟨⟨[], []⟩, ⟨[], []⟩, ⟨[], []⟩⟩
    ∧ (combineAnalysisResults hm (bareSemantic s) jd ts).scoring_breakdown
        = ⟨hm.hard_match_score, 70, 60, 65,
            (combineAnalysisResults hm (bareSemantic s) jd ts).relevance_score⟩
    ∧ (combineAnalysisResults hm (bareSemantic s) jd ts).confidence_score = 85
    ∧ (combineAnalysisResults hm { sem with confidence_score := some 0 } jd ts).confidence_score
        = 85 :=
  ⟨rfl, rfl, rfl, rfl, rfl, rfl, rfl, rfl, rfl, rfl, rfl, rfl, rfl, rfl, rfl, rfl⟩

/-- C10: every element of the matched and missing lists is a string taken
verbatim from the must-have or good-to-have list; the matched list is the
matching must-have skills in their given order followed by newly classified
good-to-have skills in their given order (a subsequence of the good-to-have
list), and symmetrically for the missing list. -/
theorem skills_verbatim_and_ordered (resumeText : String) (jd : JobDescription) :
    (∃ t, (performHardMatch resumeText jd).matched_skills
        = jd.must_have_skills.filter (isSkillMatched (toLowerList resumeText.data)) ++ t
      ∧ t.Sublist jd.good_to_have_skills)
    ∧ (∃ u, (performHardMatch resumeText jd).missing_skills
        = jd.must_have_skills.filter
            (fun x => !(isSkillMatched (toLowerList resumeText.data) x)) ++ u
      ∧ u.Sublist jd.good_to_have_skills)
    ∧ (∀ x ∈ (performHardMatch resumeText jd).matched_skills,
        x ∈ jd.must_have_skills ∨ x ∈ jd.good_to_have_skills)
    ∧ (∀ x ∈ (performHardMatch resumeText jd).missing_skills,
        x ∈ jd.must_have_skills ∨ x ∈ jd.good_to_have_skills) := by
  obtain ⟨t, ht, hts, -⟩ := performHardMatch_matched_decomp resumeText jd
  obtain ⟨u, hu, hus, -⟩ := performHardMatch_missing_decomp resumeText jd
  refine ⟨⟨t, ht, hts⟩, ⟨u, hu, hus⟩, ?_, ?_⟩
  · intro x hx
    exact ((mem_performHardMatch_matched resumeText jd x).mp hx).1
  · intro x hx
    exact ((mem_performHardMatch_missing resumeText jd x).mp hx).1

/-- Witness for C10 at the scenario input. -/
theorem skills_verbatim_and_ordered_witness :
    (∃ t, (performHardMatch "React typescript" scenarioJob).matched_skills
        = scenarioJob.must_have_skills.filter
            (isSkillMatched (toLowerList "React typescript".data)) ++ t
      ∧ t.Sublist scenarioJob.good_to_have_skills)
    ∧ (∃ u, (performHardMatch "React typescript" scenarioJob).missing_skills
        = scenarioJob.must_have_skills.filter
            (fun x => !(isSkillMatched (toLowerList "React typescript".data) x)) ++ u
      ∧ u.Sublist scenarioJob.good_to_have_skills)
    ∧ (∀ x ∈ (performHardMatch "React typescript" scenarioJob).matched_skills,
        x ∈ scenarioJob.must_have_skills ∨ x ∈ scenarioJob.good_to_have_skills)
    ∧ (∀ x ∈ (performHardMatch "React typescript" scenarioJob).missing_skills,
        x ∈ scenarioJob.must_have_skills ∨ x ∈ scenarioJob.good_to_have_skills) :=
  skills_verbatim_and_ordered "React typescript" scenarioJob

/-- Witness for C4 at the scenario input. -/
theorem hard_match_partitions_union_witness :
    (("TypeScript" ∈ (performHardMatch "React typescript" scenarioJob).matched_skills
        ∨ "TypeScript" ∈ (performHardMatch "React typescript" scenarioJob).missing_skills)
      ↔ ("TypeScript" ∈ scenarioJob.must_have_skills
        ∨ "TypeScript" ∈ scenarioJob.good_to_have_skills))
    ∧ ¬ ("TypeScript" ∈ (performHardMatch "React typescript" scenarioJob).matched_skills
        ∧ "TypeScript" ∈ (performHardMatch "React typescript" scenarioJob).missing_skills) :=
  ⟨(hard_match_partitions_union "React typescript" scenarioJob).1 "TypeScript",
    (hard_match_partitions_union "React typescript" scenarioJob).2 "TypeScript"⟩
